import Mathlib

/-!
Focus Guard analysis core: a shallow embedding

This file embeds the analysis orchestration core of the Focus Guard browser
extension and proves properties of it.

Sources embedded (functions keep their source names):
* `src/build-chrome/src/shared/utils.js`:
  `Utils.cleanTextContent`, `Utils.parseConfidenceScore`, `Utils.isRateLimited`,
  `Utils.updateRateLimit`, `Utils.generateCacheKey`.
* `src/build-firefox/src/background/llm-client.js`:
  `LLMClient.analyzePageContent` (the orchestrator: precondition check, rate
  limit, cache lookup, provider dispatch, parse, threshold, cache store,
  fail-open catch-all).
* `src/build-chrome/src/background/background.js`:
  `BackgroundService.handlePageAnalysis` (enabled check, persisting the
  rate-limit timestamp before each analysis, filtering goals to active ones).

Modelling conventions:
* JavaScript numbers are modelled exactly: timestamps as `Nat` (with `Int`
  subtraction where the JS subtraction can go negative), and the rate-limit
  interval `60000 / requestsPerMinute` as an exact rational (`ℚ`).  For the
  integer operand ranges that occur here the double-precision comparison in
  the source agrees with the exact rational comparison.  `60000 / 0`
  evaluates to `Infinity` in JS, below which every finite number lies; the
  rate limiter's executable form uses the equivalent exact integer test
  (see `isRateLimited`), and `isRateLimited_iff` recovers the division form.
* `parseInt` on the matched digit run is modelled as the exact decimal value
  (`natOfDigits`); a run whose exact value exceeds 100 also exceeds 100 as a
  double, so the `score > 100` test is unaffected by float rounding.
* `btoa` is partial in JS (it throws on code points ≥ 256); it is modelled
  as `jsBtoa : String → Option String`.
* The ES `Map` used for the result cache is modelled as an association list
  with `Map`-style get/set/delete semantics.
* Each `Date.now()` call and the raced provider HTTP request are external
  inputs; they are injected through an `AnalyzeEnv` record whose `outcome`
  field is `Except String String` (`.error msg` is a rejected promise with
  message `msg`, covering HTTP errors, fetch failures, malformed response
  envelopes, and the `"Request timeout"` timer; `.ok raw` is the extracted
  response text).  The JS `try`/`catch` structure becomes a total function:
  every thrown error corresponds to a `failResult` branch, so the Lean
  function being total is the model of "no exception escapes the caller".
-/

set_option maxRecDepth 100000

/-! ## Character classes and regex-like list operations -/

/-- The character class of the JS regex `\s` (and of `String.prototype.trim`):
ASCII whitespace, NBSP, Ogham space, the Unicode space block, line/paragraph
separators, narrow/medium spaces, ideographic space, and the BOM. -/
def isJsWS (c : Char) : Bool :=
  let n := c.toNat
  n == 0x09 || n == 0x0A || n == 0x0B || n == 0x0C || n == 0x0D || n == 0x20 ||
  n == 0xA0 || n == 0x1680 || (0x2000 ≤ n && n ≤ 0x200A) || n == 0x2028 ||
  n == 0x2029 || n == 0x202F || n == 0x205F || n == 0x3000 || n == 0xFEFF

/-- The character class of the JS regex `\d`: the ASCII digits `0`–`9`. -/
def isDigitCh (c : Char) : Bool :=
  48 ≤ c.toNat && c.toNat ≤ 57

/-- `String.prototype.trim`: drop `\s` characters from both ends. -/
def jsTrim (l : List Char) : List Char :=
  ((l.dropWhile isJsWS).reverse.dropWhile isJsWS).reverse

/-- Worker for `jsReplaceRuns`; the flag records whether the previous
character was part of a run currently being replaced. -/
def collapseRunsAux (p : Char → Bool) (rep : Char) : Bool → List Char → List Char
  | _, [] => []
  | inRun, c :: rest =>
    if p c then
      if inRun then collapseRunsAux p rep true rest
      else rep :: collapseRunsAux p rep true rest
    else c :: collapseRunsAux p rep false rest

/-- `replace(/p+/g, rep)`: each maximal run of characters satisfying `p`
becomes the single character `rep`. -/
def jsReplaceRuns (p : Char → Bool) (rep : Char) (l : List Char) : List Char :=
  collapseRunsAux p rep false l

/-- `match(/\d+/)`: the first maximal run of decimal digits, if any. -/
def firstDigitRun : List Char → Option (List Char)
  | [] => none
  | c :: rest =>
    if isDigitCh c then some (c :: rest.takeWhile isDigitCh) else firstDigitRun rest

/-- The exact numeric value of a digit run (`parseInt(run, 10)`; exact for
the ranges relevant here, see the header). -/
def natOfDigits (ds : List Char) : Nat :=
  ds.foldl (fun acc c => acc * 10 + (c.toNat - 48)) 0

/-- `String.prototype.lastIndexOf(' ')`: the index of the last space, if
any (`-1` in JS is modelled as `none`). -/
def lastIndexOfSpace : List Char → Option Nat
  | [] => none
  | c :: rest =>
    match lastIndexOfSpace rest with
    | some i => some (i + 1)
    | none => if c = ' ' then some 0 else none

/-! ## `Utils` (src/build-chrome/src/shared/utils.js) -/

/-- `CONSTANTS.CONTENT.MAX_CONTENT_LENGTH` (src/src/shared/constants.js). -/
def MAX_CONTENT_LENGTH : Nat := 4000

/-- The whitespace normalization in `Utils.cleanTextContent`:
`.replace(/\s+/g, ' ').replace(/\n+/g, ' ').trim()` (after the first
replacement no newline remains, so the second is the identity there). -/
def normalizeWS (text : String) : List Char :=
  jsTrim (jsReplaceRuns (fun c => c == '\n') ' ' (jsReplaceRuns isJsWS ' ' text.toList))

/-- `Utils.cleanTextContent` (utils.js lines 9–34).  Normalizes whitespace,
then truncates to `MAX_CONTENT_LENGTH`, cutting at the last space when its
index exceeds `MAX_CONTENT_LENGTH * 0.8 = 3200`, and appends `...`.
The JS `!text || typeof text !== 'string'` guard returns `''` exactly for
the empty string once the input is known to be a string, which coincides
with the normalization of `""`, so it needs no separate branch. -/
def cleanTextContent (text : String) : String :=
  let cleaned := normalizeWS text
  if cleaned.length > MAX_CONTENT_LENGTH then
    let c1 := cleaned.take MAX_CONTENT_LENGTH
    let c2 :=
      match lastIndexOfSpace c1 with
      | some i => if i > MAX_CONTENT_LENGTH * 8 / 10 then c1.take i else c1
      | none => c1
    String.mk (c2 ++ ['.', '.', '.'])
  else String.mk cleaned

/-- `Utils.parseConfidenceScore` (utils.js lines 163–182): trim, take the
first run of decimal digits, `parseInt` it, and reject values outside
`[0, 100]`.  The score is a `Nat`, so the JS `score < 0` test is kept as a
(vacuous) disjunct for faithfulness. -/
def parseConfidenceScore (response : String) : Option Nat :=
  if response = "" then none
  else
    match firstDigitRun (jsTrim response.toList) with
    | none => none
    | some ds =>
      let score := natOfDigits ds
      if score < 0 ∨ score > 100 then none else some score

/-! ## Data model -/

/-- A user goal (`{id, text, createdAt, isActive}`). -/
structure Goal where
  id : String
  text : String
  createdAt : Nat
  isActive : Bool
deriving DecidableEq, Repr

/-- `settings.rateLimit`. -/
structure RateLimitCfg where
  requestsPerMinute : Nat
  lastRequestTime : Nat
deriving DecidableEq, Repr

/-- The persisted settings singleton.  `provider` and `apiKey` use `""` for
the JS falsy "unset" values.  `enableCache` is the options-page toggle
(`handleCacheToggle` in src/src/options/options.js). -/
structure Settings where
  enabled : Bool
  confidenceThreshold : Nat
  provider : String
  model : String
  apiKey : String
  rateLimit : RateLimitCfg
  enableCache : Bool
deriving DecidableEq, Repr

/-- An `AnalysisResult` as produced by `analyzePageContent` /
`handlePageAnalysis`; fields absent in JS are `none`. -/
structure AnalysisResult where
  confidence : Nat
  shouldBlock : Bool
  reasoning : String
  provider : Option String := none
  model : Option String := none
  duration : Option Nat := none
  error : Option String := none
deriving DecidableEq, Repr

/-- A value of the LLM client's cache `Map` entry `{result, timestamp}`. -/
structure CacheEntry where
  result : AnalysisResult
  timestamp : Nat
deriving DecidableEq, Repr

/-- The LLM client's `this.cache` (`Map` from key to entry), as an
association list. -/
abbrev Cache := List (String × CacheEntry)

/-- `Map.prototype.get` / `has`. -/
def cacheGet? (c : Cache) (k : String) : Option CacheEntry :=
  (c.find? (fun e => e.1 == k)).map (·.2)

/-- `Map.prototype.set` (replaces any entry under the same key). -/
def cacheSet (c : Cache) (k : String) (v : CacheEntry) : Cache :=
  (k, v) :: c.filter (fun e => e.1 != k)

/-- `Map.prototype.delete`. -/
def cacheDelete (c : Cache) (k : String) : Cache :=
  c.filter (fun e => e.1 != k)

/-! ## Rate limiting (utils.js lines 91–110) -/

/-- `Utils.isRateLimited` (utils.js lines 91–97): compute
`minInterval = (60 * 1000) / requestsPerMinute` and test
`now - lastRequestTime < minInterval`.  (`lastRequestTime` is a `Nat` here,
so the JS `|| 0` default is the identity.)  `now` is the `Date.now()`
value, injected as a parameter.  The JS float comparison is modelled
exactly: for `requestsPerMinute = 0` the interval is `60000 / 0 = Infinity`
and every finite elapsed time is below it; for `requestsPerMinute > 0` the
comparison `timeSince < 60000 / r` between the integer `timeSince` and the
exact rational `60000 / r` is equivalent to `timeSince * r < 60000` (the
theorem `isRateLimited_iff` below re-establishes the division form). -/
def isRateLimited (settings : Settings) (now : Nat) : Bool :=
  let timeSinceLastRequest : Int := (now : Int) - (settings.rateLimit.lastRequestTime : Int)
  let r := settings.rateLimit.requestsPerMinute
  if r = 0 then true
  else decide (timeSinceLastRequest * (r : Int) < 60000)

/-- `Utils.updateRateLimit` (utils.js lines 102–110). -/
def updateRateLimit (settings : Settings) (now : Nat) : Settings :=
  { settings with rateLimit := { settings.rateLimit with lastRequestTime := now } }

/-! ## Cache key (utils.js lines 283–287) -/

/-- The base64 alphabet used by `btoa`. -/
def base64Alphabet : List Char :=
  "ABCDEFGHIJKLMNOPQRSTUVWXYZabcdefghijklmnopqrstuvwxyz0123456789+/".toList

/-- The base64 digit for a 6-bit group. -/
def b64c (n : Nat) : Char := base64Alphabet.getD n 'A'

/-- Base64-encode a byte list, with `=` padding. -/
def btoaChunks : List Nat → List Char
  | [] => []
  | [a] => [b64c (a / 4), b64c (a % 4 * 16), '=', '=']
  | [a, b] => [b64c (a / 4), b64c (a % 4 * 16 + b / 16), b64c (b % 16 * 4), '=']
  | a :: b :: c :: rest =>
    b64c (a / 4) :: b64c (a % 4 * 16 + b / 16) :: b64c (b % 16 * 4 + c / 64) ::
      b64c (c % 64) :: btoaChunks rest

/-- `btoa`: base64 of the code points, defined only when every code point is
below 256 (otherwise JS throws an `InvalidCharacterError`). -/
def jsBtoa (s : String) : Option String :=
  let codes := s.toList.map Char.toNat
  if codes.all (· < 256) then some (String.mk (btoaChunks codes)) else none

/-- `Utils.generateCacheKey` (utils.js lines 283–287):
`btoa(url + ':' + content.substring(0,100) + ':' + goalTexts.join('|')).substring(0,50)`.
`none` is the `btoa` exception (propagated to the orchestrator's catch). -/
def generateCacheKey (url content : String) (goals : List Goal) : Option String :=
  let goalsHash := String.intercalate "|" (goals.map (·.text))
  let contentHash := content.take 100
  (jsBtoa (url ++ ":" ++ contentHash ++ ":" ++ goalsHash)).map (·.take 50)

/-! ## The orchestrator (`LLMClient.analyzePageContent`,
src/build-firefox/src/background/llm-client.js lines 238–333) -/

/-- `CONSTANTS.API.CACHE_DURATION` (1 hour). -/
def CACHE_DURATION : Nat := 3600000

/-- The fail-open result produced by the orchestrator's `catch` for a thrown
error with message `msg`. -/
def failResult (msg : String) : AnalysisResult :=
  { confidence := 0, shouldBlock := false, reasoning := "Analysis failed: " ++ msg,
    error := some msg }

/-- The early return for an empty goal list. -/
def noGoalsResult : AnalysisResult :=
  { confidence := 0, shouldBlock := false, reasoning := "No goals configured" }

/-- The early return when the rate limit is exceeded. -/
def rateLimitedResult : AnalysisResult :=
  { confidence := 0, shouldBlock := false, reasoning := "Rate limit exceeded" }

/-- The success result (llm-client.js lines 305–312): `shouldBlock` is the
inclusive comparison `confidence >= settings.confidenceThreshold`. -/
def successResult (confidence : Nat) (settings : Settings) (duration : Nat) :
    AnalysisResult :=
  { confidence := confidence,
    shouldBlock := decide (confidence ≥ settings.confidenceThreshold),
    reasoning := "AI confidence: " ++ toString confidence ++ "%",
    provider := some settings.provider,
    model := some settings.model,
    duration := some duration }

/-- The message of the error thrown by `btoa` on non-Latin-1 input. -/
def btoaErrorMessage : String :=
  "The string to be encoded contains characters outside of the Latin1 range."

/-- The providers `LLMClient.createProvider` can construct; any other
(non-empty) provider string makes it throw `Unknown provider: ...`. -/
def knownProvider (p : String) : Bool :=
  p == "openrouter" || p == "openai" || p == "anthropic"

/-- The external inputs of one `analyzePageContent` run: the `Date.now()`
values observed at the rate-limit check (`nowRate`), the cache-expiry check
(`nowCache`) and the cache store (`nowStore`); the elapsed time of the raced
provider call (`duration`); the background context's `window.location?.href`
(`none` when `window.location` is absent); and the settled outcome of
`Promise.race([provider.makeRequest(prompt), timeoutPromise])`. -/
structure AnalyzeEnv where
  nowRate : Nat
  nowCache : Nat
  nowStore : Nat
  duration : Nat
  windowLocationHref : Option String
  outcome : Except String String
deriving Repr

/-- `LLMClient.analyzePageContent(title, content, goals, settings)`
(llm-client.js lines 238–333), with the client's mutable `this.cache`
passed explicitly and returned updated.  All thrown errors (unconfigured
provider/key, `btoa` failure, unknown provider, provider/timeout rejection,
unparsable confidence) are routed to `failResult` exactly as the `catch`
block does; the cache key is derived from `window.location?.href || ''`,
`content` and `goals` exactly as at line 265 (the visited page's URL is not
a parameter of the source function). -/
def analyzePageContent (title content : String) (goals : List Goal)
    (settings : Settings) (cache : Cache) (env : AnalyzeEnv) :
    AnalysisResult × Cache :=
  if settings.provider = "" ∨ settings.apiKey = "" then
    (failResult "LLM provider not configured", cache)
  else if goals = [] then
    (noGoalsResult, cache)
  else if isRateLimited settings env.nowRate then
    (rateLimitedResult, cache)
  else
    match generateCacheKey (env.windowLocationHref.getD "") content goals with
    | none => (failResult btoaErrorMessage, cache)
    | some cacheKey =>
      let checked : Option AnalysisResult × Cache :=
        match cacheGet? cache cacheKey with
        | some cached =>
          if (env.nowCache : Int) - (cached.timestamp : Int) < (CACHE_DURATION : Int) then
            (some cached.result, cache)
          else (none, cacheDelete cache cacheKey)
        | none => (none, cache)
      match checked with
      | (some cachedResult, cache1) => (cachedResult, cache1)
      | (none, cache1) =>
        if knownProvider settings.provider then
          match env.outcome with
          | Except.error msg => (failResult msg, cache1)
          | Except.ok raw =>
            match parseConfidenceScore raw with
            | none => (failResult "Invalid confidence score in response", cache1)
            | some confidence =>
              let result := successResult confidence settings env.duration
              (result, cacheSet cache1 cacheKey ⟨result, env.nowStore⟩)
        else
          (failResult ("Unknown provider: " ++ settings.provider), cache1)

/-- `BackgroundService.handlePageAnalysis` (background.js lines 92–188),
restricted to the analysis pipeline: the enabled check, persisting
`lastRequestTime = now` via `updateRateLimit`/`setSettings` *before* the
analysis while passing the **pre-update** settings into
`analyzePageContent`, and filtering goals to active ones.  Returns the
result, the updated cache, and the settings as persisted in the store
afterwards.  `url` is the payload field; the source uses it only for the
pending-analysis key and logging. -/
def handlePageAnalysis (url title content : String) (goals : List Goal)
    (stored : Settings) (cache : Cache) (now : Nat) (env : AnalyzeEnv) :
    AnalysisResult × Cache × Settings :=
  if stored.enabled = false then
    ({ confidence := 0, shouldBlock := false, reasoning := "Extension disabled" },
      cache, stored)
  else
    let updated := updateRateLimit stored now
    let rc := analyzePageContent title content (goals.filter (·.isActive)) stored cache env
    (rc.1, rc.2, updated)

/-! ## Helper lemmas: digit runs and whitespace trimming -/

/-- A `\s` character is not a `\d` character. -/
theorem ws_not_digit {c : Char} (h : isJsWS c = true) : isDigitCh c = false := by
  have hn : ¬ (48 ≤ c.toNat ∧ c.toNat ≤ 57) := by
    simp only [isJsWS, Bool.or_eq_true, Bool.and_eq_true, beq_iff_eq,
      decide_eq_true_eq] at h
    omega
  rw [← Bool.not_eq_true]
  simp only [isDigitCh, Bool.and_eq_true, decide_eq_true_eq]
  exact hn

/-- Dropping leading whitespace does not change the first digit run. -/
theorem firstDigitRun_dropWhile_ws (l : List Char) :
    firstDigitRun (l.dropWhile isJsWS) = firstDigitRun l := by
  induction l with
  | nil => rfl
  | cons c t ih =>
    by_cases hc : isJsWS c = true
    · rw [List.dropWhile_cons_of_pos hc, ih]
      have hd := ws_not_digit hc
      simp [firstDigitRun, hd]
    · rw [List.dropWhile_cons_of_neg hc]

/-- A list with no digit character has no digit run. -/
theorem firstDigitRun_eq_none (l : List Char) (h : ∀ c ∈ l, isDigitCh c = false) :
    firstDigitRun l = none := by
  induction l with
  | nil => rfl
  | cons c t ih =>
    have hc := h c (List.mem_cons_self c t)
    simp only [firstDigitRun, hc, Bool.false_eq_true, if_false]
    exact ih fun x hx => h x (List.mem_cons_of_mem c hx)

/-- Appending a digit-free suffix does not change `takeWhile isDigitCh`. -/
theorem takeWhile_digit_append (xs ys : List Char)
    (h : ∀ c ∈ ys, isDigitCh c = false) :
    (xs ++ ys).takeWhile isDigitCh = xs.takeWhile isDigitCh := by
  induction xs with
  | nil =>
    simp only [List.nil_append, List.takeWhile_nil]
    cases ys with
    | nil => rfl
    | cons y t =>
      have hy := h y (List.mem_cons_self y t)
      simp [List.takeWhile_cons, hy]
  | cons x t ih =>
    by_cases hx : isDigitCh x = true
    · simp only [List.cons_append, List.takeWhile_cons, hx, if_true, ih]
    · simp [List.cons_append, List.takeWhile_cons, hx]

/-- Appending a digit-free suffix does not change the first digit run. -/
theorem firstDigitRun_append (xs ys : List Char)
    (h : ∀ c ∈ ys, isDigitCh c = false) :
    firstDigitRun (xs ++ ys) = firstDigitRun xs := by
  induction xs with
  | nil => exact firstDigitRun_eq_none ys h
  | cons x t ih =>
    by_cases hx : isDigitCh x = true
    · simp only [List.cons_append, firstDigitRun, hx, if_true, List.append_eq]
      rw [takeWhile_digit_append t ys h]
    · simp only [List.cons_append, firstDigitRun, hx, Bool.false_eq_true, if_false,
        List.append_eq]
      exact ih

/-- `trim` does not change the first digit run. -/
theorem firstDigitRun_jsTrim (l : List Char) :
    firstDigitRun (jsTrim l) = firstDigitRun l := by
  unfold jsTrim
  rw [← firstDigitRun_dropWhile_ws l]
  set m := l.dropWhile isJsWS with hm
  have hsplit : m = (m.reverse.dropWhile isJsWS).reverse ++ (m.reverse.takeWhile isJsWS).reverse := by
    conv_lhs => rw [← List.reverse_reverse m]
    rw [← List.reverse_append, List.takeWhile_append_dropWhile]
  have hws : ∀ c ∈ (m.reverse.takeWhile isJsWS).reverse, isDigitCh c = false := by
    intro c hc
    rw [List.mem_reverse] at hc
    exact ws_not_digit (List.mem_takeWhile_imp hc)
  conv_rhs => rw [hsplit]
  rw [firstDigitRun_append _ _ hws]

/-- **C6.** `Utils.parseConfidenceScore` returns exactly the value of the
first run of decimal digits of the response when that value lies in
`[0, 100]`, and `none` when there is no digit run or the value exceeds 100;
being a total Lean function, it cannot throw. -/
theorem parseConfidenceScore_spec (s : String) :
    parseConfidenceScore s =
      match firstDigitRun s.toList with
      | none => none
      | some ds => if natOfDigits ds ≤ 100 then some (natOfDigits ds) else none := by
  unfold parseConfidenceScore
  by_cases hs : s = ""
  · subst hs
    rfl
  · rw [if_neg hs, firstDigitRun_jsTrim]
    cases h : firstDigitRun s.toList with
    | none => rfl
    | some ds =>
      simp only []
      by_cases h100 : natOfDigits ds ≤ 100
      · rw [if_neg, if_pos h100]
        omega
      · rw [if_pos, if_neg h100]
        omega

/-! ## Rate limiter theorems -/

/-- **C7.** With `requestsPerMinute = R > 0`, `Utils.isRateLimited` returns
`true` exactly when the elapsed time since `lastRequestTime` is strictly
below `60000 / R` milliseconds (so in particular `false` whenever it is
greater).  It is a pure function of its arguments: the `Date.now()` value is
an explicit parameter and nothing is mutated. -/
theorem isRateLimited_iff (settings : Settings) (now R : Nat)
    (hR : settings.rateLimit.requestsPerMinute = R) (h0 : 0 < R) :
    isRateLimited settings now = true ↔
      (now : ℚ) - (settings.rateLimit.lastRequestTime : ℚ) < 60000 / (R : ℚ) := by
  unfold isRateLimited
  rw [hR, if_neg (Nat.pos_iff_ne_zero.mp h0)]
  rw [decide_eq_true_eq]
  have hRq : (0 : ℚ) < (R : ℚ) := by exact_mod_cast h0
  rw [lt_div_iff₀ hRq]
  constructor
  · intro h
    have : ((now : Int) - (settings.rateLimit.lastRequestTime : Int)) * (R : Int) <
        (60000 : Int) := h
    exact_mod_cast this
  · intro h
    have : (((now : Int) - (settings.rateLimit.lastRequestTime : Int)) * (R : Int) : ℚ) <
        ((60000 : Int) : ℚ) := by push_cast; push_cast at h; linarith
    exact_mod_cast this

/-- Witness for C7: with `R = 20` (minimum interval 3000 ms) a call 1000 ms
after the last request is rate-limited. -/
theorem isRateLimited_iff_witness :
    isRateLimited
      { enabled := true, confidenceThreshold := 75, provider := "openai",
        model := "m", apiKey := "k", rateLimit := ⟨20, 500000⟩,
        enableCache := true } 501000 = true :=
  (isRateLimited_iff _ 501000 20 rfl (by norm_num)).mpr (by norm_num)

/-- With `requestsPerMinute = 0`, `isRateLimited` is `true` for every
`lastRequestTime` and every `now` (JS: `60000 / 0 = Infinity`). -/
theorem isRateLimited_zero (settings : Settings) (now : Nat)
    (h : settings.rateLimit.requestsPerMinute = 0) :
    isRateLimited settings now = true := by
  unfold isRateLimited
  rw [h, if_pos rfl]

/-- **C10.** With `requestsPerMinute = 0` the rate limiter is total and
always reports "limited", so `analyzePageContent` always short-circuits to a
fail-open allow result: `shouldBlock` is `false`, the cache is untouched,
and the result does not depend on the provider-call outcome (no network
request is consulted) — rather than crashing on the division by zero. -/
theorem rateLimit_zero_fail_open (title content : String) (goals : List Goal)
    (settings : Settings) (cache : Cache) (env : AnalyzeEnv)
    (h : settings.rateLimit.requestsPerMinute = 0) :
    isRateLimited settings env.nowRate = true ∧
    (analyzePageContent title content goals settings cache env).1.shouldBlock = false ∧
    (analyzePageContent title content goals settings cache env).2 = cache ∧
    ∀ env2 : AnalyzeEnv,
      analyzePageContent title content goals settings cache env2 =
        analyzePageContent title content goals settings cache env := by
  have key : ∀ e : AnalyzeEnv,
      analyzePageContent title content goals settings cache e =
        (if settings.provider = "" ∨ settings.apiKey = "" then
          (failResult "LLM provider not configured", cache)
        else if goals = [] then (noGoalsResult, cache)
        else (rateLimitedResult, cache)) := by
    intro e
    unfold analyzePageContent
    by_cases h1 : settings.provider = "" ∨ settings.apiKey = ""
    · rw [if_pos h1, if_pos h1]
    · rw [if_neg h1, if_neg h1]
      by_cases h2 : goals = []
      · rw [if_pos h2, if_pos h2]
      · rw [if_neg h2, if_neg h2, if_pos (isRateLimited_zero settings e.nowRate h)]
  refine ⟨isRateLimited_zero settings env.nowRate h, ?_, ?_, ?_⟩
  · rw [key env]
    by_cases h1 : settings.provider = "" ∨ settings.apiKey = ""
    · rw [if_pos h1]
      rfl
    · rw [if_neg h1]
      by_cases h2 : goals = []
      · rw [if_pos h2]
        rfl
      · rw [if_neg h2]
        rfl
  · rw [key env]
    by_cases h1 : settings.provider = "" ∨ settings.apiKey = ""
    · rw [if_pos h1]
    · rw [if_neg h1]
      by_cases h2 : goals = []
      · rw [if_pos h2]
      · rw [if_neg h2]
  · intro env2
    rw [key env, key env2]

/-- Witness for C10 at a concrete configured state: `R = 0` yields the
rate-limited allow result and leaves the cache empty. -/
theorem rateLimit_zero_fail_open_witness :
    isRateLimited
      { enabled := true, confidenceThreshold := 75, provider := "openai",
        model := "m", apiKey := "k", rateLimit := ⟨0, 0⟩, enableCache := true }
      7777 = true ∧
    (analyzePageContent "T" "hello" [⟨"id1", "study", 0, true⟩]
      { enabled := true, confidenceThreshold := 75, provider := "openai",
        model := "m", apiKey := "k", rateLimit := ⟨0, 0⟩, enableCache := true }
      []
      { nowRate := 7777, nowCache := 7777, nowStore := 7800, duration := 5,
        windowLocationHref := some "moz-extension://abc/background.html",
        outcome := Except.ok "85" }).1.shouldBlock = false ∧
    (analyzePageContent "T" "hello" [⟨"id1", "study", 0, true⟩]
      { enabled := true, confidenceThreshold := 75, provider := "openai",
        model := "m", apiKey := "k", rateLimit := ⟨0, 0⟩, enableCache := true }
      []
      { nowRate := 7777, nowCache := 7777, nowStore := 7800, duration := 5,
        windowLocationHref := some "moz-extension://abc/background.html",
        outcome := Except.ok "85" }).2 = [] := by
  have h := rateLimit_zero_fail_open "T" "hello" [⟨"id1", "study", 0, true⟩]
    { enabled := true, confidenceThreshold := 75, provider := "openai",
      model := "m", apiKey := "k", rateLimit := ⟨0, 0⟩, enableCache := true }
    []
    { nowRate := 7777, nowCache := 7777, nowStore := 7800, duration := 5,
      windowLocationHref := some "moz-extension://abc/background.html",
      outcome := Except.ok "85" }
    rfl
  exact ⟨h.1, h.2.1, h.2.2.1⟩

/-! ## Concrete fixtures used by witnesses and counterexamples -/

/-- A concrete active goal. -/
def gStudy : Goal := ⟨"id1", "study", 0, true⟩

/-- A concrete fully configured settings value (threshold 50, 20 req/min,
never requested yet). -/
def sBase : Settings :=
  { enabled := true, confidenceThreshold := 50, provider := "openai",
    model := "m", apiKey := "k", rateLimit := ⟨20, 0⟩, enableCache := true }

/-- A concrete environment: the provider answers `"85"` in 500 ms. -/
def envOk85 : AnalyzeEnv :=
  { nowRate := 1000000, nowCache := 1000000, nowStore := 1000700, duration := 500,
    windowLocationHref := some "moz-extension://abc/background.html",
    outcome := Except.ok "85" }

/-! ## C5: unconfigured provider/key -/

/-- **C5 (amended).** With `provider` or `apiKey` unset, `analyzePageContent`
throws `'LLM provider not configured'`, which the fail-open `catch` converts
to `{confidence: 0, shouldBlock: false, reasoning: "Analysis failed: LLM
provider not configured", error: "LLM provider not configured"}`.  The cache
is untouched, and since `env` (which carries the provider-call outcome) is
universally quantified while the right-hand side does not mention it, no
network interaction influences the result. -/
theorem analyzePageContent_not_configured (title content : String)
    (goals : List Goal) (settings : Settings) (cache : Cache) (env : AnalyzeEnv)
    (h : settings.provider = "" ∨ settings.apiKey = "") :
    analyzePageContent title content goals settings cache env =
      (failResult "LLM provider not configured", cache) := by
  unfold analyzePageContent
  rw [if_pos h]

/-- A concrete settings value with no provider and no API key. -/
def sUnconfigured : Settings :=
  { enabled := true, confidenceThreshold := 50, provider := "", model := "m",
    apiKey := "", rateLimit := ⟨20, 0⟩, enableCache := true }

/-- Witness for C5 (amended) at a concrete unconfigured state. -/
theorem analyzePageContent_not_configured_witness :
    analyzePageContent "T" "hello" [gStudy] sUnconfigured [] envOk85 =
      (failResult "LLM provider not configured", []) :=
  analyzePageContent_not_configured "T" "hello" [gStudy] sUnconfigured [] envOk85
    (Or.inl rfl)

/-- **C5 counterexample.** The claim's literal result `{confidence: 0,
shouldBlock: false, reasoning: "not configured"}` is not what the code
returns: at an unconfigured state the `reasoning` field is
`"Analysis failed: LLM provider not configured"` (and an `error` field is
set), not `"not configured"`. -/
theorem analyzePageContent_not_configured_counterexample :
    (analyzePageContent "T" "hello" [gStudy] sUnconfigured [] envOk85).1.reasoning ≠
      "not configured" ∧
    (analyzePageContent "T" "hello" [gStudy] sUnconfigured [] envOk85).1.reasoning =
      "Analysis failed: LLM provider not configured" ∧
    (analyzePageContent "T" "hello" [gStudy] sUnconfigured [] envOk85).1.error =
      some "LLM provider not configured" := by
  refine ⟨by decide, by decide, by decide⟩

/-! ## C3: `enableCache` is never consulted -/

/-- `sBase` with the options-page cache toggle switched off. -/
def sCacheOff : Settings :=
  { enabled := true, confidenceThreshold := 50, provider := "openai",
    model := "m", apiKey := "k", rateLimit := ⟨20, 0⟩, enableCache := false }

/-- A later environment in which the provider call fails with an HTTP 500. -/
def envErr500 : AnalyzeEnv :=
  { nowRate := 1010000, nowCache := 1010000, nowStore := 1010100, duration := 1,
    windowLocationHref := some "moz-extension://abc/background.html",
    outcome := Except.error "HTTP 500: boom" }

/-- **C3 (code bug).** The analysis path never reads `settings.enableCache`:
with caching switched off in the options page, a successful analysis still
*writes* the result cache (the returned cache is non-empty), and a
subsequent identical analysis still *reads* it — it returns the first,
cached result even though its own provider call fails with an HTTP 500. -/
theorem enableCache_ignored :
    sCacheOff.enableCache = false ∧
    (analyzePageContent "T" "hello" [gStudy] sCacheOff [] envOk85).2 ≠ [] ∧
    (analyzePageContent "T" "hello" [gStudy] sCacheOff
        (analyzePageContent "T" "hello" [gStudy] sCacheOff [] envOk85).2
        envErr500).1 =
      (analyzePageContent "T" "hello" [gStudy] sCacheOff [] envOk85).1 := by
  refine ⟨rfl, by decide, by decide⟩

/-! ## C1: fail-open totality -/

/-- The injected failure modes of one orchestrator run: missing provider or
API key, an empty goal list, being rate-limited, or a provider call that
does not settle into a parseable confidence (this last disjunct covers every
rejected promise — HTTP non-2xx, fetch failure, malformed response envelope,
forced timeout — as well as a 2xx response whose text has no confidence in
`[0, 100]`). -/
def failureInjected (goals : List Goal) (settings : Settings) (env : AnalyzeEnv) : Prop :=
  settings.provider = "" ∨ settings.apiKey = "" ∨ goals = [] ∨
  isRateLimited settings env.nowRate = true ∨
  (∀ raw, env.outcome = Except.ok raw → parseConfidenceScore raw = none)

/-- **C1.** Under every injected failure mode, `analyzePageContent` (on a
fresh client, whose cache starts empty) returns a result with
`shouldBlock = false`.  `analyzePageContent` is a total Lean function —
every JS `throw` in its scope is one of the `failResult` branches — which is
the model of "no exception escapes to the caller". -/
theorem analyzePageContent_fail_open (title content : String) (goals : List Goal)
    (settings : Settings) (env : AnalyzeEnv)
    (h : failureInjected goals settings env) :
    (analyzePageContent title content goals settings [] env).1.shouldBlock = false := by
  unfold analyzePageContent
  by_cases h1 : settings.provider = "" ∨ settings.apiKey = ""
  · rw [if_pos h1]
    rfl
  · rw [if_neg h1]
    by_cases h2 : goals = []
    · rw [if_pos h2]
      rfl
    · rw [if_neg h2]
      by_cases h3 : isRateLimited settings env.nowRate = true
      · rw [if_pos h3]
        rfl
      · rw [if_neg h3]
        have h5 : ∀ raw, env.outcome = Except.ok raw → parseConfidenceScore raw = none := by
          rcases h with h | h | h | h | h
          · exact absurd (Or.inl h) h1
          · exact absurd (Or.inr h) h1
          · exact absurd h h2
          · exact absurd h h3
          · exact h
        cases hkey : generateCacheKey (env.windowLocationHref.getD "") content goals with
        | none => rfl
        | some k =>
          simp only [cacheGet?, List.find?_nil, Option.map_none']
          by_cases h4 : knownProvider settings.provider = true
          · rw [if_pos h4]
            cases hout : env.outcome with
            | error msg => rfl
            | ok raw =>
              simp only []
              rw [h5 raw hout]
              rfl
          · rw [if_neg h4]
            rfl

/-- A configured run whose provider call loses the race against the 10 s
timer (`Promise.race` rejects with `Request timeout`). -/
def envTimeout : AnalyzeEnv :=
  { nowRate := 1000000, nowCache := 1000000, nowStore := 1010000, duration := 10000,
    windowLocationHref := some "moz-extension://abc/background.html",
    outcome := Except.error "Request timeout" }

/-- Witness for C1: a forced timeout on a fully configured run allows the
page. -/
theorem analyzePageContent_fail_open_witness :
    (analyzePageContent "T" "hello" [gStudy] sBase [] envTimeout).1.shouldBlock = false :=
  analyzePageContent_fail_open "T" "hello" [gStudy] sBase envTimeout
    (Or.inr (Or.inr (Or.inr (Or.inr fun _ hraw => Except.noConfusion hraw))))

/-! ## The successful analysis path -/

/-- On the successful path — configured, goals present, not rate-limited, a
computable cache key, a known provider, a settled response whose confidence
parses — `analyzePageContent` on an empty cache returns the success result
and stores it under the cache key with the store-time timestamp. -/
theorem analyzePageContent_success_eq (title content : String) (goals : List Goal)
    (settings : Settings) (env : AnalyzeEnv) (raw : String) (c : Nat) (k : String)
    (hp : ¬ (settings.provider = "" ∨ settings.apiKey = ""))
    (hg : goals ≠ [])
    (hr : isRateLimited settings env.nowRate = false)
    (hkey : generateCacheKey (env.windowLocationHref.getD "") content goals = some k)
    (hknown : knownProvider settings.provider = true)
    (hout : env.outcome = Except.ok raw)
    (hparse : parseConfidenceScore raw = some c) :
    analyzePageContent title content goals settings [] env =
      (successResult c settings env.duration,
        [(k, ⟨successResult c settings env.duration, env.nowStore⟩)]) := by
  unfold analyzePageContent
  rw [if_neg hp, if_neg hg, if_neg (by rw [hr]; exact Bool.false_ne_true)]
  rw [hkey]
  simp only [cacheGet?, List.find?_nil, Option.map_none']
  rw [if_pos hknown, hout]
  simp only []
  rw [hparse]
  simp only [cacheSet, List.filter_nil]

/-! ## C8: inclusive threshold comparison -/

/-- **C8.** On the successful analysis path the result's confidence is the
parsed score `c` and `shouldBlock` is the inclusive comparison
`confidence >= settings.confidenceThreshold`: a confidence equal to the
threshold blocks, a confidence of `threshold - 1` (i.e. with `c + 1 =
threshold`) does not. -/
theorem analyzePageContent_threshold (title content : String) (goals : List Goal)
    (settings : Settings) (env : AnalyzeEnv) (raw : String) (c : Nat) (k : String)
    (hp : ¬ (settings.provider = "" ∨ settings.apiKey = ""))
    (hg : goals ≠ [])
    (hr : isRateLimited settings env.nowRate = false)
    (hkey : generateCacheKey (env.windowLocationHref.getD "") content goals = some k)
    (hknown : knownProvider settings.provider = true)
    (hout : env.outcome = Except.ok raw)
    (hparse : parseConfidenceScore raw = some c) :
    (analyzePageContent title content goals settings [] env).1.confidence = c ∧
    (analyzePageContent title content goals settings [] env).1.shouldBlock
      = decide (settings.confidenceThreshold ≤ c) ∧
    (c = settings.confidenceThreshold →
      (analyzePageContent title content goals settings [] env).1.shouldBlock = true) ∧
    (c + 1 = settings.confidenceThreshold →
      (analyzePageContent title content goals settings [] env).1.shouldBlock = false) := by
  rw [analyzePageContent_success_eq title content goals settings env raw c k
    hp hg hr hkey hknown hout hparse]
  refine ⟨rfl, rfl, ?_, ?_⟩
  · intro hc
    subst hc
    simp [successResult]
  · intro hc
    simp only [successResult, ge_iff_le, decide_eq_false_iff_not]
    omega

/-- `envOk85` but the model answers exactly the threshold value `"50"`. -/
def envOk50 : AnalyzeEnv :=
  { nowRate := 1000000, nowCache := 1000000, nowStore := 1000700, duration := 500,
    windowLocationHref := some "moz-extension://abc/background.html",
    outcome := Except.ok "50" }

/-- Witness for C8: with threshold 50 a confidence of exactly 50 blocks. -/
theorem analyzePageContent_threshold_witness :
    (analyzePageContent "T" "hello" [gStudy] sBase [] envOk50).1.shouldBlock = true := by
  have h := analyzePageContent_threshold "T" "hello" [gStudy] sBase envOk50 "50" 50
    "bW96LWV4dGVuc2lvbjovL2FiYy9iYWNrZ3JvdW5kLmh0bWw6aG"
    (by decide) (by decide) (by decide) (by decide) (by decide) rfl (by decide)
  exact h.2.2.1 rfl

/-! ## C4: cache idempotence and its rate-limit caveat -/

/-- A `Map.get` on a key just `Map.set` hits that entry. -/
theorem cacheGet?_cons_self (k : String) (e : CacheEntry) (rest : Cache) :
    cacheGet? ((k, e) :: rest) k = some e := by
  simp [cacheGet?, List.find?]

/-- **C4 (amended).** Two analyses with identical `(title, content, goals)`
and the same background `window.location` (the source derives the cache key
from it, not from the visited page URL), where the first succeeds and the
second runs within the cache window — **and the second is itself not
rate-limited** — give a bit-identical result on the second call: it is the
first call's stored `AnalysisResult`, original `duration` included.  The
second call's settings may differ in the persisted `lastRequestTime` (they
are an arbitrary `s2` constrained only by being configured and not
rate-limited). -/
theorem analyzePageContent_cache_idempotent (title content : String)
    (goals : List Goal) (s s2 : Settings) (env1 env2 : AnalyzeEnv)
    (raw : String) (c : Nat) (k : String)
    (hp : ¬ (s.provider = "" ∨ s.apiKey = ""))
    (hg : goals ≠ [])
    (hr1 : isRateLimited s env1.nowRate = false)
    (hkey : generateCacheKey (env1.windowLocationHref.getD "") content goals = some k)
    (hknown : knownProvider s.provider = true)
    (hout : env1.outcome = Except.ok raw)
    (hparse : parseConfidenceScore raw = some c)
    (hp2 : ¬ (s2.provider = "" ∨ s2.apiKey = ""))
    (hr2 : isRateLimited s2 env2.nowRate = false)
    (hurl : env2.windowLocationHref = env1.windowLocationHref)
    (hfresh : (env2.nowCache : Int) - (env1.nowStore : Int) < (CACHE_DURATION : Int)) :
    (analyzePageContent title content goals s2
        (analyzePageContent title content goals s [] env1).2 env2).1 =
      (analyzePageContent title content goals s [] env1).1 := by
  rw [analyzePageContent_success_eq title content goals s env1 raw c k
    hp hg hr1 hkey hknown hout hparse]
  unfold analyzePageContent
  rw [if_neg hp2, if_neg hg, if_neg (by rw [hr2]; exact Bool.false_ne_true)]
  rw [hurl, hkey]
  simp only []
  rw [cacheGet?_cons_self]
  simp only []
  rw [if_pos hfresh]

/-- The settings as persisted after the first analysis: `lastRequestTime`
was written to the first call's timestamp. -/
def sAfterFirst : Settings :=
  { enabled := true, confidenceThreshold := 50, provider := "openai",
    model := "m", apiKey := "k", rateLimit := ⟨20, 1000000⟩, enableCache := true }

/-- A second environment 10 s after `envOk85` (outside the 3 s rate-limit
interval, inside the 1 h cache window). -/
def envOk85Later : AnalyzeEnv :=
  { nowRate := 1010000, nowCache := 1010000, nowStore := 1010700, duration := 450,
    windowLocationHref := some "moz-extension://abc/background.html",
    outcome := Except.ok "85" }

/-- Witness for C4 (amended): a second identical analysis 10 s after a
successful first one returns the first result bit-identically. -/
theorem analyzePageContent_cache_idempotent_witness :
    (analyzePageContent "T" "hello" [gStudy] sAfterFirst
        (analyzePageContent "T" "hello" [gStudy] sBase [] envOk85).2 envOk85Later).1 =
      (analyzePageContent "T" "hello" [gStudy] sBase [] envOk85).1 :=
  analyzePageContent_cache_idempotent "T" "hello" [gStudy] sBase sAfterFirst
    envOk85 envOk85Later "85" 85
    "bW96LWV4dGVuc2lvbjovL2FiYy9iYWNrZ3JvdW5kLmh0bWw6aG"
    (by decide) (by decide) (by decide) rfl (by decide) rfl (by decide)
    (by decide) (by decide) rfl (by decide)

/-- The first end-to-end analysis of the pair used to refute C4 as stated:
`handlePageAnalysis` persists `lastRequestTime = 1000000` before a
successful analysis (confidence 85, blocked). -/
def fgFirstRun : AnalysisResult × Cache × Settings :=
  handlePageAnalysis "https://a.example/" "T" "hello" [gStudy] sBase [] 1000000 envOk85

/-- An identical request 1 s later (within the 3 s minimum interval of the
20 req/min limit, and well within the 1 h cache window). -/
def envOk85Quick : AnalyzeEnv :=
  { nowRate := 1001000, nowCache := 1001000, nowStore := 1001600, duration := 500,
    windowLocationHref := some "moz-extension://abc/background.html",
    outcome := Except.ok "85" }

/-- The second end-to-end analysis, 1 s after the first, with identical
`(url, title, content, goals)` and the persisted settings and cache of the
first. -/
def fgSecondRunQuick : AnalysisResult × Cache × Settings :=
  handlePageAnalysis "https://a.example/" "T" "hello" [gStudy] fgFirstRun.2.2
    fgFirstRun.2.1 1001000 envOk85Quick

/-- **C4 counterexample.** With caching enabled, two identical analyses 1 s
apart — well inside the 1 h cache window — do *not* return bit-identical
results: the rate-limit check runs before the cache check and the
background service persisted `lastRequestTime` before the first analysis,
so the second invocation returns the rate-limited allow result instead of
the cached result of the first. -/
theorem analyzePageContent_not_idempotent_within_rate_interval :
    sBase.enableCache = true ∧
    (1001000 - 1000000 : Nat) < CACHE_DURATION ∧
    fgFirstRun.1.confidence = 85 ∧
    fgSecondRunQuick.1 = rateLimitedResult ∧
    fgSecondRunQuick.1 ≠ fgFirstRun.1 := by
  refine ⟨rfl, by decide, by decide, by decide, by decide⟩

/-! ## C2: the visited page's URL is not part of the cache key -/

/-- An analysis environment for a *different* visited page with the same
content: its own provider call would answer confidence 5 (allow), 10 s
after `envOk85`.  The background context (`window.location`) is unchanged —
it does not depend on which page is being visited. -/
def envOk5Later : AnalyzeEnv :=
  { nowRate := 1010000, nowCache := 1010000, nowStore := 1010700, duration := 500,
    windowLocationHref := some "moz-extension://abc/background.html",
    outcome := Except.ok "5" }

/-- **C2 (code bug).** `analyzePageContent` computes the cache key from
`window.location?.href || ''` (llm-client.js line 265) — the background
context's own location — not from the visited page's URL, which
`handlePageAnalysis` receives in its payload but never passes on.  So two
analyses of *different* pages (`https://a.example/` vs `https://b.example/`)
with the same content and goals share one cache key: the second page is
served the first page's cached blocked verdict even though its own provider
call would have answered confidence 5.  Had the page URL been fed to
`Utils.generateCacheKey` as the spec describes, the keys would differ (last
conjunct). -/
theorem cacheKey_ignores_visited_url :
    (handlePageAnalysis "https://b.example/" "T" "hello" [gStudy] fgFirstRun.2.2
        fgFirstRun.2.1 1010000 envOk5Later).1 = fgFirstRun.1 ∧
    fgFirstRun.1.shouldBlock = true ∧
    "https://a.example/" ≠ "https://b.example/" ∧
    generateCacheKey "https://a.example/" "hello" [gStudy] ≠
      generateCacheKey "https://b.example/" "hello" [gStudy] := by
  refine ⟨by decide, by decide, by decide, by decide⟩

/-! ## C9: content truncation -/

/-- `lastIndexOf` returns an index inside the list. -/
theorem lastIndexOfSpace_lt_length (l : List Char) (i : Nat)
    (h : lastIndexOfSpace l = some i) : i < l.length := by
  induction l generalizing i with
  | nil => simp [lastIndexOfSpace] at h
  | cons c t ih =>
    rw [lastIndexOfSpace] at h
    cases ht : lastIndexOfSpace t with
    | some j =>
      rw [ht] at h
      simp only [Option.some.injEq] at h
      have := ih j ht
      simp only [List.length_cons]
      omega
    | none =>
      rw [ht] at h
      by_cases hc : c = ' '
      · rw [if_pos hc] at h
        simp only [Option.some.injEq] at h
        simp only [List.length_cons]
        omega
      · rw [if_neg hc] at h
        exact absurd h (by simp)

/-- **C9 (amended).** `Utils.cleanTextContent` branches on the length of the
*whitespace-normalized* text, not the raw input: when the normalized text
exceeds 4000 characters the result is its prefix of some length `k ≤ 4000`
with `...` appended, where `k` is the index of the last space within the
first 4000 characters whenever that index exceeds `3200 = 80%` of the
limit, and `4000` otherwise; when the normalized text has at most 4000
characters it is returned as is, with no truncation and no marker. -/
theorem cleanTextContent_spec (s : String) :
    ((normalizeWS s).length ≤ 4000 → cleanTextContent s = String.mk (normalizeWS s)) ∧
    (4000 < (normalizeWS s).length →
      ∃ k, k ≤ 4000 ∧
        cleanTextContent s = String.mk ((normalizeWS s).take k ++ ['.', '.', '.']) ∧
        (match lastIndexOfSpace ((normalizeWS s).take 4000) with
         | some i => (3200 < i ∧ k = i) ∨ (i ≤ 3200 ∧ k = 4000)
         | none => k = 4000)) := by
  constructor
  · intro hle
    unfold cleanTextContent
    rw [if_neg (by simp only [MAX_CONTENT_LENGTH]; omega)]
  · intro hgt
    unfold cleanTextContent
    rw [if_pos (by simp only [MAX_CONTENT_LENGTH]; omega)]
    cases hsp : lastIndexOfSpace ((normalizeWS s).take 4000) with
    | none =>
      refine ⟨4000, le_refl _, ?_, rfl⟩
      simp only []
      rw [show MAX_CONTENT_LENGTH = 4000 from rfl, hsp]
    | some i =>
      have hi4000 : i < 4000 := by
        have := lastIndexOfSpace_lt_length _ _ hsp
        rw [List.length_take] at this
        omega
      by_cases h32 : 3200 < i
      · refine ⟨i, by omega, ?_, Or.inl ⟨h32, rfl⟩⟩
        simp only []
        rw [show MAX_CONTENT_LENGTH = 4000 from rfl, hsp]
        simp only []
        rw [if_pos (show i > 4000 * 8 / 10 by omega)]
        rw [List.take_take, Nat.min_eq_left (by omega)]
      · refine ⟨4000, le_refl _, ?_, Or.inr ⟨by omega, rfl⟩⟩
        simp only []
        rw [show MAX_CONTENT_LENGTH = 4000 from rfl, hsp]
        simp only []
        rw [if_neg (show ¬ i > 4000 * 8 / 10 by omega)]

/-- Witness for C9 (amended): a short input is returned normalized, with no
marker. -/
theorem cleanTextContent_spec_witness :
    cleanTextContent "hello  world" = "hello world" :=
  Eq.trans ((cleanTextContent_spec "hello  world").1 (by decide)) (by decide)

/-- Replacing a run of spaces that is already in progress produces nothing
further. -/
theorem collapseRunsAux_space_replicate (n : Nat) :
    collapseRunsAux isJsWS ' ' true (List.replicate n ' ') = [] := by
  induction n with
  | zero => rfl
  | succ m ih =>
    rw [List.replicate_succ]
    simp [collapseRunsAux, ih, show isJsWS ' ' = true from rfl]

/-- `replace(/\s+/g, ' ')` collapses a non-empty all-space string to a
single space. -/
theorem jsReplaceRuns_space_replicate (n : Nat) :
    jsReplaceRuns isJsWS ' ' (List.replicate (n + 1) ' ') = [' '] := by
  rw [List.replicate_succ]
  unfold jsReplaceRuns
  simp [collapseRunsAux, collapseRunsAux_space_replicate,
    show isJsWS ' ' = true from rfl]

/-- Normalizing 4001 spaces yields the empty text. -/
theorem normalizeWS_replicate_space :
    normalizeWS (String.mk (List.replicate 4001 ' ')) = [] := by
  unfold normalizeWS
  rw [show (String.mk (List.replicate 4001 ' ')).toList = List.replicate 4001 ' '
    from rfl]
  rw [show (4001 : Nat) = 4000 + 1 from rfl, jsReplaceRuns_space_replicate]
  rfl

/-- **C9 counterexample.** The claim's first clause quantifies over raw
inputs "longer than 4000 characters": the 4001-space string is such an
input, yet `cleanTextContent` returns the empty string — not a string with
an appended ellipsis marker — because the truncation branch tests the
*normalized* length. -/
theorem cleanTextContent_counterexample :
    (String.mk (List.replicate 4001 ' ')).length > 4000 ∧
    cleanTextContent (String.mk (List.replicate 4001 ' ')) = "" ∧
    ∀ body : List Char,
      cleanTextContent (String.mk (List.replicate 4001 ' ')) ≠
        String.mk (body ++ ['.', '.', '.']) := by
  have hempty : cleanTextContent (String.mk (List.replicate 4001 ' ')) = "" := by
    unfold cleanTextContent
    rw [normalizeWS_replicate_space]
    rfl
  refine ⟨?_, hempty, ?_⟩
  · show (List.replicate 4001 ' ').length > 4000
    rw [List.length_replicate]
    omega
  · intro body hbad
    rw [hempty] at hbad
    have hdata := congrArg String.data hbad
    have hlen := congrArg List.length hdata
    simp [List.length_append] at hlen
